import Mathlib

/-!
Verification development for the `rkbdb2xml` exporter
(`src/rkbdb2xml/rkbdb2xml.py` and `src/rkbdb2xml/cli.py`).

The Python source is shallowly embedded: each definition below names the
source function (or the external collaborator behaviour the source relies
on) it embeds.  Machine arithmetic that the source performs on Python
floats is modelled with exact rationals; the only float-dependent output
exercised here is `"{:.2f}".format(v / 100.0)` on database integers, where
the binary rounding error (< 2^-40) is far below the 0.005 threshold that
could change the printed two-decimal string, so the rational model prints
the identical string.
-/

namespace Rkbdb2xml

/-- Model of a Python runtime value as stored in a database field: an
integer or a string.  (`None` / missing attributes are modelled by
`Option` at the access points, matching the source's
`hasattr`/`is not None` guards.) -/
inductive PyVal where
  | vint (n : Int)
  | vstr (s : String)
deriving DecidableEq, Repr

/-- Python `str()` on a field value. -/
def pyStr : PyVal → String
  | .vint n => toString n
  | .vstr s => s

/-- Numeric value of a digit list (most significant first); helper for
the model of Python `float()`. -/
def digitsVal (cs : List Char) : Nat :=
  cs.foldl (fun a c => a * 10 + (c.toNat - 48)) 0

/-- Parse an unsigned decimal literal (digits with at most one point)
into an exact rational.  This is the fragment of Python `float()`
exercised by the source on BPM fields: plain decimal literals parse,
anything else (e.g. `"invalid"`, `""`) raises `ValueError`, modelled as
`none`.  (Exponents, `inf`/`nan` and surrounding whitespace, which never
occur in BPM database fields, are not modelled and also map to `none`.) -/
def parseUnsigned (cs : List Char) : Option ℚ :=
  let ip := cs.takeWhile (fun c => c ≠ '.')
  let fp := (cs.dropWhile (fun c => c ≠ '.')).drop 1
  if (ip ++ fp).all Char.isDigit && !(ip ++ fp).isEmpty then
    some ((digitsVal ip : ℚ) + (digitsVal fp : ℚ) / (10 : ℚ) ^ fp.length)
  else
    none

/-- Model of Python `float(s)` on a string (see `parseUnsigned`). -/
def pyFloat (s : String) : Option ℚ :=
  match s.data with
  | '-' :: rest => (parseUnsigned rest).map (fun q => -q)
  | '+' :: rest => parseUnsigned rest
  | cs => parseUnsigned cs

/-- Model of Python `float(x)` on a field value: exact on integers,
`parseUnsigned` on strings.  `none` models the
`ValueError`/`TypeError` caught at `rkbdb2xml.py:362`. -/
def pyFloatOfVal : PyVal → Option ℚ
  | .vint n => some (n : ℚ)
  | .vstr s => pyFloat s

/-- Model of Python `"{:.2f}".format(q)`: round `q * 100` to an integer
and print it with a decimal point before the last two digits.  (Python
formats the nearest binary double with round-half-even; for the values
reaching this function — database integers divided by 100 — the two
renderings agree, since exact `.xx5` ties cannot arise there.) -/
def format2f (q : ℚ) : String :=
  let n : Int := ⌊q * 100 + 1 / 2⌋
  let m : Nat := n.natAbs
  (if n < 0 then "-" else "")
    ++ toString (m / 100) ++ "."
    ++ (if m % 100 < 10 then "0" else "") ++ toString (m % 100)

/-- Embeds `rkbdb2xml.py:358-363`: the `AverageBpm` value computed from
the raw `BPM` field — `"{:.2f}".format(float(bpm_raw) / 100.0)`, falling
back to `str(bpm_raw)` when the conversion raises. -/
def averageBpmAttr (raw : PyVal) : String :=
  match pyFloatOfVal raw with
  | some q => format2f (q / 100)
  | none => pyStr raw

/-- Python `dict` assignment `d[k] = v` on an association list: replace
the (unique) existing binding in place, else append. -/
def dictSet : List (String × String) → String → String → List (String × String)
  | [], k, v => [(k, v)]
  | p :: d, k, v => if p.1 == k then (k, v) :: d else p :: dictSet d k v

/-- Python `d.get(k)` on an association list. -/
def dictGet : List (String × String) → String → Option String
  | [], _ => none
  | p :: d, k => if p.1 == k then some p.2 else dictGet d k

/-- Python `del d[k]` (as used at `rkbdb2xml.py:480-481`). -/
def dictRemove (d : List (String × String)) (k : String) : List (String × String) :=
  d.filter (fun p => p.1 != k)

/-- A database track row (`DjmdContent`) as the exporter reads it:
`fields` is the attribute table consulted by `getattr`/`hasattr`
(absent attributes and `None` values are both unbound here, matching the
source's `hasattr(track, f)` + `value is not None` guards), `location`
is the resolved file path/URI, i.e. the value `_get_track_file_path`
returns for this row (`""` when unresolved), and `seq` is the
`Sequence` attribute used by the collection sort at
`rkbdb2xml.py:266-269`. -/
structure Track where
  fields : List (String × PyVal)
  location : String
  seq : Int
deriving DecidableEq, Repr

/-- Python `getattr(track, f)` returning `none` for an absent attribute
or a `None` value. -/
def getattr (t : Track) (f : String) : Option PyVal :=
  (t.fields.find? (fun p => p.1 == f)).map (fun p => p.2)

/-- Embeds `_track_attribute_mapping` (`rkbdb2xml.py:589-696`): the
merged dict `{**alternative_mappings, **main_mapping}` in Python dict
insertion order (the two key sets are disjoint, so the merge is the
concatenation of the two literals). -/
def trackAttributeMapping : List (String × String) :=
  [("id", "TrackID"), ("Id", "TrackID"), ("track_id", "TrackID"), ("TrackId", "TrackID"),
   ("title", "Name"), ("name", "Name"), ("track_title", "Name"),
   ("artist", "Artist"), ("artist_name", "Artist"),
   ("bpm", "AverageBpm"), ("average_bpm", "AverageBpm"), ("Bpm", "AverageBpm"),
   ("date_added", "DateAdded"), ("added_date", "DateAdded"), ("added_at", "DateAdded"),
   ("location", "Location"), ("path", "Location"), ("file_path", "Location"), ("FilePath", "Location"),
   ("file_size", "Size"), ("filesize", "Size"),
   ("duration", "TotalTime"), ("length", "TotalTime"), ("time", "TotalTime"),
   ("comment", "Comments"), ("play_count", "PlayCount"),
   ("key", "Tonality"), ("musical_key", "Tonality"),
   ("disc_no", "DiscNumber"), ("track_no", "TrackNumber"),
   ("ID", "TrackID"), ("Title", "Name"),
   ("Artist", "Artist"), ("ArtistName", "Artist"),
   ("Composer", "Composer"), ("ComposerName", "Composer"),
   ("Album", "Album"), ("AlbumName", "Album"),
   ("Grouping", "Grouping"),
   ("Genre", "Genre"), ("GenreName", "Genre"),
   ("FileType", "Kind"), ("Kind", "Kind"),
   ("FileSize", "Size"), ("Size", "Size"),
   ("Length", "TotalTime"), ("TotalTime", "TotalTime"),
   ("DiscNo", "DiscNumber"), ("DiscNumber", "DiscNumber"),
   ("TrackNo", "TrackNumber"), ("TrackNumber", "TrackNumber"),
   ("ReleaseYear", "Year"), ("Year", "Year"),
   ("BPM", "AverageBpm"), ("AverageBpm", "AverageBpm"),
   ("DateCreated", "DateAdded"), ("StockDate", "DateAdded"), ("DateAdded", "DateAdded"),
   ("BitRate", "BitRate"), ("SampleRate", "SampleRate"),
   ("Commnt", "Comments"), ("Comments", "Comments"),
   ("DJPlayCount", "PlayCount"), ("PlayCount", "PlayCount"),
   ("Rating", "Rating"), ("Location", "Location"),
   ("Remixer", "Remixer"), ("RemixerName", "Remixer"),
   ("KeyName", "Tonality"), ("Tonality", "Tonality"),
   ("Label", "Label"), ("LabelName", "Label"),
   ("Mix", "Mix")]

/-- One iteration of the attribute loop at `rkbdb2xml.py:365-382`:
entries targeting `AverageBpm` are skipped (`continue`), otherwise a
present, non-`None` field is stringified and stored (with `Location`
replaced by the resolved location; the `FolderPath` arm of line 377 is
dead, as `FolderPath` is not a key of the mapping). -/
def mapStep (t : Track) (attrs : List (String × String)) (fm : String × String) :
    List (String × String) :=
  if fm.2 == "AverageBpm" then attrs
  else
    match getattr t fm.1 with
    | some v => dictSet attrs fm.2 (if fm.1 == "Location" then t.location else pyStr v)
    | none => attrs

/-- Embeds `rkbdb2xml.py:351-382`: the track attribute dict — the
`AverageBpm` entry is computed first from the raw `BPM` field, then the
generic mapping loop fills the remaining attributes. -/
def buildTrackAttrs (t : Track) : List (String × String) :=
  let attrs0 : List (String × String) :=
    match getattr t "BPM" with
    | some raw => [("AverageBpm", averageBpmAttr raw)]
    | none => []
  trackAttributeMapping.foldl (mapStep t) attrs0

/-- The attributes given an explicit `''` default at
`rkbdb2xml.py:469-471`. -/
def requiredDefaultAttrs : List String :=
  ["Album", "Artist", "Composer", "Genre", "Grouping", "Label", "Mix", "Remixer", "Tonality"]

/-- A `TRACK` element of the produced `COLLECTION`. -/
structure XmlTrack where
  trackId : String
  location : String
  attrs : List (String × String)
deriving DecidableEq, Repr

/-- The `COLLECTION` being built. -/
structure Collection where
  tracks : List XmlTrack
deriving DecidableEq, Repr

/-- Model of the external collaborator `RekordboxXml.add_track(location,
**attrs)` exactly as the source observes it (`rkbdb2xml.py:485-500`): it
raises `"... already contains a track with Location ..."` iff the
location is already present, and otherwise appends a `TRACK` element
with the given location and attributes. -/
def xmlAddTrack (col : Collection) (loc : String) (attrs : List (String × String)) :
    Option Collection :=
  if col.tracks.any (fun tr => tr.location == loc) then none
  else some ⟨col.tracks ++ [⟨(dictGet attrs "TrackID").getD "", loc, attrs⟩]⟩

/-- The value `track_id = track_attrs.get('TrackID', '')` of
`rkbdb2xml.py:465`. -/
def trackIdAttr (t : Track) : String :=
  (dictGet (buildTrackAttrs t) "TrackID").getD ""

/-- The attribute dict actually passed to `add_track`: the mandatory
attributes defaulted to `''` (`rkbdb2xml.py:469-471`) and `Location`
removed (`rkbdb2xml.py:480-481`). -/
def finalTrackAttrs (t : Track) : List (String × String) :=
  dictRemove
    (requiredDefaultAttrs.foldl
      (fun a attr => if (dictGet a attr).isSome then a else dictSet a attr "")
      (buildTrackAttrs t))
    "Location"

/-- The location passed to `add_track` (`rkbdb2xml.py:473-477`): a
synthetic unique name substitutes an empty or `file://localhost/`
location. -/
def finalTrackLocation (t : Track) : String :=
  if t.location == "" || t.location == "file://localhost/" then
    "unknown_location_" ++ trackIdAttr t ++ ".mp3"
  else t.location

/-- Embeds `_add_track_to_xml` (`rkbdb2xml.py:334-587`) on its normal
(attribute-access) path: build the attribute dict, default the mandatory
attributes, substitute a synthetic location for empty /
`file://localhost/` locations, drop `Location` from the dict, and call
`add_track` — retrying once with `location?id=<TrackID>` when the
collaborator reports a duplicate location (`rkbdb2xml.py:487-492`).
Returns the updated collection and the success flag.  (The marker
post-processing at lines 502-580 only rebinds a local variable and
swallows its own exceptions, so it can affect neither the returned flag
nor the added `TRACK`.) -/
def addTrackToXml (col : Collection) (t : Track) : Collection × Bool :=
  match xmlAddTrack col (finalTrackLocation t) (finalTrackAttrs t) with
  | some col2 => (col2, true)
  | none =>
      match xmlAddTrack col (finalTrackLocation t ++ "?id=" ++ trackIdAttr t)
          (finalTrackAttrs t) with
      | some col2 => (col2, true)
      | none => (col, false)

/-- Stable insertion of `a` after every element `b` with `le b a`;
building block of the model of Python's stable `sorted`. -/
def stableInsert (le : α → α → Bool) (a : α) : List α → List α
  | [] => [a]
  | b :: bs => if le b a then b :: stableInsert le a bs else a :: b :: bs

/-- Model of Python's stable `sorted(l, key=...)` (as a comparison
`le`): repeatedly stable-insert; elements comparing equal keep their
original relative order, as in CPython's Timsort. -/
def stableSort (le : α → α → Bool) (l : List α) : List α :=
  l.foldl (fun acc a => stableInsert le a acc) []

/-- The collection sort at `rkbdb2xml.py:266-269`: stable sort by the
`Sequence` attribute. -/
def sortTracksBySequence (ts : List Track) : List Track :=
  stableSort (fun a b => decide (a.seq ≤ b.seq)) ts

/-- The per-track loop of `_add_tracks_to_collection`
(`rkbdb2xml.py:280-293`): rows whose resolved location is empty are
skipped (`continue`) before `_add_track_to_xml` is called.
(`_get_track_file_path` always returns a `str`, so the `is None` half of
the guard is vacuous.) -/
def collectionFold (ts : List Track) (col : Collection) : Collection :=
  ts.foldl (fun c t => if t.location == "" then c else (addTrackToXml c t).1) col

/-- Embeds `_add_tracks_to_collection` (`rkbdb2xml.py:232-296`): sort by
`Sequence`, then add each row with a non-empty resolved location. -/
def addTracksToCollection (ts : List Track) : Collection :=
  collectionFold (sortTracksBySequence ts) ⟨[]⟩

/-- A normalized playlist-tree row as `_add_playlists` builds it
(`rkbdb2xml.py:920-944` via SQL, normalized at 1007-1116): `Id`,
`ParentId` (`0` denotes the virtual root) and `Name`; folder rows come
from `Attribute = 1`, leaf playlists from `Attribute = 0`, each list
already in `ORDER BY Seq` order. -/
structure PlRow where
  id : Nat
  parentId : Nat
  name : String
deriving DecidableEq, Repr

/-- Kind of an XML `NODE` in the `PLAYLISTS` section. -/
inductive NodeKind where
  | root
  | folder
  | playlist
deriving DecidableEq, Repr

/-- An XML `NODE` of the `PLAYLISTS` section.  `nid` identifies the node
object, `parent` is the `nid` of the node it was created under, and
`trackKeys` are the `Key` attributes of the `TRACK` references of a leaf
playlist.  `rowId` is provenance metadata (the database row `Id` the
node was created from, `0` for the root); it is used only to state
properties, not part of the XML output. -/
structure XNode where
  nid : Nat
  parent : Nat
  kind : NodeKind
  name : String
  rowId : Nat
  trackKeys : List String
deriving DecidableEq, Repr

/-- The root playlists folder (`xml.root_playlist_folder`), keyed by `0`
in `folder_map` (`rkbdb2xml.py:1125`). -/
def rootNode : XNode := ⟨0, 0, .root, "ROOT", 0, []⟩

/-- Python `folder_map.get(k)`: look up a folder row id in the map
(newest binding first, as bindings are prepended). -/
def fmLookup (fmap : List (Nat × Nat)) (k : Nat) : Option Nat :=
  ((fmap.find? (fun p => p.1 == k)).map (fun p => p.2))

/-- Embeds the folder loop of `_add_playlists` (`rkbdb2xml.py:1128-1148`):
for each folder row (already sorted by `ParentId`), attach a new folder
node under `folder_map.get(parent_id)` — falling back to the root when
the parent is not (yet) in the map — and record the new node in the map. -/
def buildFolders : List PlRow → List XNode → List (Nat × Nat) → List XNode × List (Nat × Nat)
  | [], nodes, fmap => (nodes, fmap)
  | f :: rest, nodes, fmap =>
      let parent := (fmLookup fmap f.parentId).getD 0
      buildFolders rest (nodes ++ [⟨nodes.length, parent, .folder, f.name, f.id, []⟩])
        ((f.id, nodes.length) :: fmap)

/-- Embeds `_add_tracks_to_playlist` (`rkbdb2xml.py:1175-1279`) composed
with the playlist loop (1151-1173): for each leaf playlist row, attach a
playlist node under `folder_map.get(parent_id)` (root fallback), then
add one `TRACK` reference with `Key = str(track_id)` per entry of
`djmdSongPlaylist` (in `TrackNo` order, via `entriesOf`), skipping falsy
(zero) ids (`if track_id:` at line 1261); `pyrekordbox`'s
`Node.add_track`, and the `etree` fallback of lines 1274-1276, append
the reference without checking membership in `COLLECTION`. -/
def buildPlaylists (entriesOf : Nat → List Nat) :
    List PlRow → List XNode → List (Nat × Nat) → List XNode
  | [], nodes, _ => nodes
  | p :: rest, nodes, fmap =>
      let parent := (fmLookup fmap p.parentId).getD 0
      buildPlaylists entriesOf rest
        (nodes ++ [⟨nodes.length, parent, .playlist, p.name, p.id,
          ((entriesOf p.id).filter (fun cid => cid ≠ 0)).map (fun cid => toString cid)⟩])
        fmap

/-- The folder sort of `rkbdb2xml.py:1128`:
`sorted(normalized_folders, key=lambda f: f.get('ParentId', 0))`. -/
def sortFoldersByParentId (fs : List PlRow) : List PlRow :=
  stableSort (fun a b => decide (a.parentId ≤ b.parentId)) fs

/-- Embeds `_add_playlists` (`rkbdb2xml.py:900-1173`) downstream of row
normalization: `folder_map = {0: root}`, folders first (sorted by
`ParentId`), then the leaf playlists. -/
def addPlaylists (folders playlists : List PlRow) (entriesOf : Nat → List Nat) :
    List XNode :=
  let bf := buildFolders (sortFoldersByParentId folders) [rootNode] [(0, 0)]
  buildPlaylists entriesOf playlists bf.1 bf.2

/-- The `TrackID`s present in the produced `COLLECTION`. -/
def collectionTrackIds (col : Collection) : List String :=
  col.tracks.map (fun tr => tr.trackId)

/-- Referential integrity of the produced document: every `TRACK`
reference of every playlist leaf node names a `TrackID` present in
`COLLECTION`. -/
def referentialIntegrity (col : Collection) (nodes : List XNode) : Prop :=
  ∀ n ∈ nodes, n.kind = .playlist → ∀ k ∈ n.trackKeys, k ∈ collectionTrackIds col

instance (col : Collection) (nodes : List XNode) :
    Decidable (referentialIntegrity col nodes) := by
  unfold referentialIntegrity
  infer_instance

/-- Positional-parameter signature of a Python function: total number of
positional parameters and how many of them have defaults. -/
structure PySig where
  nparams : Nat
  ndefaults : Nat
deriving DecidableEq, Repr

/-- Whether a Python call with `nargs` positional arguments binds
against `sig` (no `*args`): at least the required parameters and at most
all of them; otherwise the call raises `TypeError` before the function
body runs. -/
def bindsPositional (sig : PySig) (nargs : Nat) : Bool :=
  decide (sig.nparams - sig.ndefaults ≤ nargs) && decide (nargs ≤ sig.nparams)

/-- Signature of `export_rekordbox_db_to_xml` (`rkbdb2xml.py:1412`):
`(db_path, output_path, verbose=False, db_key=None)` — 4 positional
parameters, 2 with defaults. -/
def exportFuncSig : PySig := ⟨4, 2⟩

/-- The call at `cli.py:90-99` passes 8 positional arguments:
`(db_path_str, str(output), db_key, verbose, roman, bpm, orderby,
parsed_playlists)`. -/
def cliExportCallNargs : Nat := 8

/-- The resolved option values of one invocation of the CLI `export`
command (`cli.py:19-67`), together with whether the output path already
exists. -/
structure CliOpts where
  outputExists : Bool
  force : Bool
  verbose : Bool
  roman : Bool
  bpm : Bool
  orderby : String
  playlists : List String
deriving DecidableEq, Repr

/-- Observable outcome of one run of the CLI `export` command. -/
structure CliResult where
  exitCode : Nat
  dbOpened : Bool
  wroteOutput : Bool
deriving DecidableEq, Repr

/-- Embeds the body of the CLI `export` command (`cli.py:75-106`): the
existing-output guard exits with code 1; otherwise the 8-positional-
argument call to `export_rekordbox_db_to_xml` is attempted — if it bound,
the export body would run (database opened, file written); if it does
not bind, the `TypeError` raised at the call site is caught by the
`except Exception` handler, which prints a message and raises
`typer.Exit(1)`. -/
def cliExport (o : CliOpts) : CliResult :=
  if o.outputExists && !o.force then ⟨1, false, false⟩
  else if bindsPositional exportFuncSig cliExportCallNargs then ⟨0, true, true⟩
  else ⟨1, false, false⟩

/-- Modelled from the spec (section 4.5): the playlist-entry ordering of
the current exporter — `orderby="bpm"` re-sorts the references by the
referenced track's raw BPM, with a missing BPM treated as `0` (sorting
first), while any other mode preserves the accessor's native order.
This feature is declared by `cli.py:57-61` and exercised by
`tests/test_orderby_bpm.py`, but its implementation is not among the
source files under `src/` (`_add_tracks_to_playlist` there has no
ordering parameter). -/
def orderPlaylistEntries (orderby : String) (bpmOf : Nat → Option Int)
    (entries : List Nat) : List Nat :=
  if orderby == "bpm" then
    stableSort (fun a b => decide ((bpmOf a).getD 0 ≤ (bpmOf b).getD 0)) entries
  else entries

/-- Modelled from the spec (section 4.2): the Transliterator
`romanize(text, enabled)` — the external engine is a parameter returning
`none` on failure.  If disabled, or the text is empty or pure ASCII, the
text is returned unchanged; otherwise the engine is invoked and any
failure falls back to the original text.  The implementation (the
`romann`-based code behind `cli.py:47-51` and
`tests/test_romanization.py`) is not among the source files under
`src/`. -/
def romanize (engine : String → Option String) (enabled : Bool) (text : String) : String :=
  if !enabled || text == "" || text.data.all (fun c => c.toNat ≤ 127) then text
  else
    match engine text with
    | some r => r
    | none => text

/-! Concrete inputs used by claim theorems and witnesses. -/

/-- A track row whose resolved location is empty: skipped by
`_add_tracks_to_collection`. -/
def c1Track : Track := ⟨[("ID", .vint 7), ("BPM", .vint 12000), ("Title", .vstr "Ghost")], "", 0⟩

/-- A leaf playlist row at the root. -/
def c1Playlist : PlRow := ⟨2, 0, "P"⟩

/-- The `djmdSongPlaylist` rows: playlist 2 contains track 7. -/
def c1EntriesOf : Nat → List Nat := fun pid => if pid == 2 then [7] else []

/-- A concrete track row exercising the mapping loop: it also carries
the alias fields `bpm` and `Bpm`, which target `AverageBpm` in the
mapping table. -/
def c5Track : Track :=
  ⟨[("ID", .vint 5), ("BPM", .vint 12800), ("bpm", .vint 99), ("Bpm", .vstr "77"),
    ("Title", .vstr "T"), ("ArtistName", .vstr "A")], "file://localhost/x.mp3", 0⟩

/-- A track row whose `BPM` field is the unparsable string
`"invalid"`. -/
def c7Track : Track :=
  ⟨[("ID", .vint 9), ("BPM", .vstr "invalid"), ("Title", .vstr "X")],
   "file://localhost/y.mp3", 0⟩

/-- A track row resolving to a file also reachable from another row. -/
def c3TrackA : Track :=
  ⟨[("ID", .vint 1), ("Title", .vstr "A")], "file://localhost/Music/same.mp3", 0⟩

/-- A second track row resolving to the same file as `c3TrackA`. -/
def c3TrackB : Track :=
  ⟨[("ID", .vint 2), ("Title", .vstr "B")], "file://localhost/Music/same.mp3", 0⟩

/-- A track row whose resolved location lies inside the application's
internal managed-content area. -/
def c4SentinelTrack : Track :=
  ⟨[("ID", .vint 3), ("Title", .vstr "S")],
   "file://localhost/Users/user/Library/Pioneer/rekordbox/InternalContent/track.mp3", 0⟩

/-- Folder rows on which the stable sort by `ParentId` places a child
before its parent: row 9's parent is row 7, but the sorted order is
`(8, parent 0), (9, parent 7), (7, parent 8)`. -/
def c8FoldersBad : List PlRow := [⟨8, 0, "F1"⟩, ⟨7, 8, "F2"⟩, ⟨9, 7, "F3"⟩]

/-- Folder rows in a parent-before-child resolvable order: folder 1 at
the root, folder 2 inside folder 1. -/
def c8Folders : List PlRow := [⟨1, 0, "A"⟩, ⟨2, 1, "B"⟩]

/-- One leaf playlist inside folder 2. -/
def c8Playlists : List PlRow := [⟨5, 2, "P"⟩]

/-- Playlist entries for the `c8` fixture: all playlists empty. -/
def c8EntriesOf : Nat → List Nat := fun _ => []

/-- Raw BPM values of the referenced tracks for the `c9` witness: track
3 has no BPM and must sort first. -/
def c9BpmOf : Nat → Option Int :=
  fun cid => if cid == 1 then some 12000 else if cid == 2 then some 8000 else none

/-! Helper lemmas about the dict model. -/

theorem dictGet_dictSet_ne (d : List (String × String)) (k v k' : String)
    (h : k ≠ k') : dictGet (dictSet d k v) k' = dictGet d k' := by
  induction d with
  | nil => simp [dictSet, dictGet, beq_eq_false_iff_ne.mpr h]
  | cons p d ih =>
      by_cases hp : (p.1 == k) = true
      · have hp1 : p.1 = k := beq_iff_eq.mp hp
        simp [dictSet, hp, dictGet, beq_eq_false_iff_ne.mpr h,
          beq_eq_false_iff_ne.mpr (hp1 ▸ h)]
      · simp only [dictSet, hp, if_false, Bool.false_eq_true]
        by_cases hq : (p.1 == k') = true
        · simp [dictGet, hq]
        · simp [dictGet, hq, ih]

theorem dictGet_dictRemove_ne (d : List (String × String)) (k k' : String)
    (h : k ≠ k') : dictGet (dictRemove d k) k' = dictGet d k' := by
  induction d with
  | nil => rfl
  | cons p d ih =>
      by_cases hp : (p.1 != k) = true
      · by_cases hq : (p.1 == k') = true
        · simp [dictRemove, List.filter, hp, dictGet, hq]
        · simp only [dictRemove, List.filter, hp, dictGet, hq, Bool.false_eq_true, if_false]
          simpa [dictRemove] using ih
      · have hp1 : p.1 = k := by
          by_contra hne
          exact hp (bne_iff_ne.mpr hne)
        by_cases hq : (p.1 == k') = true
        · exact absurd (beq_iff_eq.mp hq) (hp1 ▸ h)
        · simp only [dictRemove, List.filter, hp, Bool.false_eq_true, if_false, dictGet, hq]
          simpa [dictRemove] using ih

theorem dictGet_foldl_defaults_ne (l : List String) :
    ∀ (attrs : List (String × String)) (k : String), (∀ a ∈ l, a ≠ k) →
    dictGet
      (l.foldl (fun a attr => if (dictGet a attr).isSome then a else dictSet a attr "") attrs)
      k = dictGet attrs k := by
  induction l with
  | nil => intro attrs k _; rfl
  | cons a l ih =>
      intro attrs k h
      rw [List.foldl_cons, ih _ k (fun b hb => h b (List.mem_cons_of_mem a hb))]
      by_cases hs : (dictGet attrs a).isSome
      · simp [hs]
      · simp [hs, dictGet_dictSet_ne _ _ _ _ (h a (List.mem_cons_self a l))]

/-- The generic mapping loop never writes the key `AverageBpm` (each
entry mapping to it is skipped by the `continue` at
`rkbdb2xml.py:366-368`), so the loop preserves the pre-computed
binding. -/
theorem foldl_mapStep_preserves_averageBpm (t : Track) :
    ∀ (l : List (String × String)) (attrs : List (String × String)),
    dictGet (l.foldl (mapStep t) attrs) "AverageBpm" = dictGet attrs "AverageBpm" := by
  intro l
  induction l with
  | nil => intro attrs; rfl
  | cons fm rest ih =>
      intro attrs
      rw [List.foldl_cons, ih]
      by_cases h : (fm.2 == "AverageBpm") = true
      · simp [mapStep, h]
      · cases hg : getattr t fm.1 with
        | none => simp [mapStep, h, hg]
        | some v =>
            simp only [mapStep, h, Bool.false_eq_true, if_false, hg]
            exact dictGet_dictSet_ne _ _ _ _ (beq_eq_false_iff_ne.mp (by simpa using h))

theorem buildTrackAttrs_averageBpm (t : Track) (raw : PyVal)
    (h : getattr t "BPM" = some raw) :
    dictGet (buildTrackAttrs t) "AverageBpm" = some (averageBpmAttr raw) := by
  unfold buildTrackAttrs
  rw [h, foldl_mapStep_preserves_averageBpm]
  rfl

theorem finalTrackAttrs_averageBpm (t : Track) (raw : PyVal)
    (h : getattr t "BPM" = some raw) :
    dictGet (finalTrackAttrs t) "AverageBpm" = some (averageBpmAttr raw) := by
  unfold finalTrackAttrs
  rw [dictGet_dictRemove_ne _ _ _ (by decide),
    dictGet_foldl_defaults_ne _ _ _ (by decide),
    buildTrackAttrs_averageBpm t raw h]

/-- A track whose location is fresh (and neither empty nor the
`file://localhost/` placeholder) is appended to the collection on the
first `add_track` attempt. -/
theorem addTrackToXml_fresh (col : Collection) (t : Track)
    (hne : t.location ≠ "") (hne2 : t.location ≠ "file://localhost/")
    (hfresh : ∀ tr ∈ col.tracks, tr.location ≠ t.location) :
    addTrackToXml col t =
      (⟨col.tracks ++
        [⟨(dictGet (finalTrackAttrs t) "TrackID").getD "", t.location, finalTrackAttrs t⟩]⟩,
       true) := by
  have hl : finalTrackLocation t = t.location := by
    unfold finalTrackLocation
    rw [beq_eq_false_iff_ne.mpr hne, beq_eq_false_iff_ne.mpr hne2]
    rfl
  have hany : (col.tracks.any (fun tr => tr.location == t.location)) = false := by
    rw [List.any_eq_false]
    intro x hx
    simpa [beq_iff_eq] using hfresh x hx
  unfold addTrackToXml
  rw [hl]
  unfold xmlAddTrack
  rw [hany]
  rfl

/-- On a nonnegative integer raw value `v`, `float(v) / 100.0` printed
with `"{:.2f}"` is `v` with a decimal point inserted before the last two
digits. -/
theorem averageBpmAttr_int (v : Nat) :
    averageBpmAttr (.vint (v : Int)) =
      toString (v / 100) ++ "." ++ (if v % 100 < 10 then "0" else "") ++ toString (v % 100) := by
  have hfl : (⌊(((v : Int) : ℚ)) / 100 * 100 + 1 / 2⌋ : ℤ) = (v : Int) := by
    rw [div_mul_cancel₀ _ (by norm_num : (100 : ℚ) ≠ 0)]
    rw [Int.floor_eq_iff]
    constructor
    · push_cast
      linarith
    · push_cast
      linarith
  have hneg : ¬((v : Int) < 0) := by omega
  unfold averageBpmAttr pyFloatOfVal format2f
  simp only [hfl, if_neg hneg, Int.natAbs_ofNat]
  simp

/-! Claim theorems. -/


/-- C1: the claimed referential-integrity invariant fails on the code.
At a database whose only track (id 7) has an empty resolved location and
whose only playlist contains that track, `_add_tracks_to_collection`
skips the track (COLLECTION is empty) while `_add_tracks_to_playlist`
still emits a `TRACK` reference with `Key = "7"` into the playlist leaf
node — a dangling reference. -/
theorem c1_playlist_reference_dangles :
    (addTracksToCollection [c1Track]).tracks = [] ∧
    (addPlaylists [] [c1Playlist] c1EntriesOf).map (fun n => n.trackKeys) = [[], ["7"]] ∧
    ¬ referentialIntegrity (addTracksToCollection [c1Track])
        (addPlaylists [] [c1Playlist] c1EntriesOf) := by
  decide

/-- C2: for every combination of CLI options, the `export` command's
call to `export_rekordbox_db_to_xml` passes 8 positional arguments
against a 4-parameter signature, so it never binds; the command always
finishes with exit code 1, without opening a database or writing an
output file. -/
theorem c2_cli_export_always_exits_one (o : CliOpts) :
    bindsPositional exportFuncSig cliExportCallNargs = false ∧
    (cliExport o).exitCode = 1 ∧ (cliExport o).dbOpened = false ∧
    (cliExport o).wroteOutput = false := by
  refine ⟨rfl, ?_⟩
  unfold cliExport
  by_cases h : (o.outputExists && !o.force) = true
  · simp [h]
  · simp [h, show bindsPositional exportFuncSig cliExportCallNargs = false from rfl]

/-- Witness for C2 at one concrete option vector. -/
theorem c2_cli_export_witness :
    bindsPositional exportFuncSig cliExportCallNargs = false ∧
    (cliExport ⟨false, false, true, true, true, "bpm", ["A/B"]⟩).exitCode = 1 ∧
    (cliExport ⟨false, false, true, true, true, "bpm", ["A/B"]⟩).dbOpened = false ∧
    (cliExport ⟨false, false, true, true, true, "bpm", ["A/B"]⟩).wroteOutput = false :=
  c2_cli_export_always_exits_one ⟨false, false, true, true, true, "bpm", ["A/B"]⟩

/-- C5: once the `AverageBpm` attribute has been computed from the raw
`BPM` field, no later entry of the generic field-alias mapping loop
overwrites it — it survives into the attribute dict finally passed to
`add_track` unchanged.  (Recomputation is the pure function
`averageBpmAttr` of the same record, hence yields the same string.) -/
theorem c5_averageBpm_never_overwritten (t : Track) (raw : PyVal)
    (hb : getattr t "BPM" = some raw) :
    dictGet (buildTrackAttrs t) "AverageBpm" = some (averageBpmAttr raw) ∧
    dictGet (finalTrackAttrs t) "AverageBpm" = some (averageBpmAttr raw) :=
  ⟨buildTrackAttrs_averageBpm t raw hb, finalTrackAttrs_averageBpm t raw hb⟩


/-- Witness for C5 at a concrete record (both dicts keep the value
computed from the raw `BPM` field, `"128.00"`). -/
theorem c5_witness :
    getattr c5Track "BPM" = some (.vint 12800) ∧
    (dictGet (buildTrackAttrs c5Track) "AverageBpm" = some (averageBpmAttr (.vint 12800)) ∧
     dictGet (finalTrackAttrs c5Track) "AverageBpm" = some (averageBpmAttr (.vint 12800))) ∧
    averageBpmAttr (.vint 12800) = "128.00" :=
  ⟨rfl, c5_averageBpm_never_overwritten c5Track (.vint 12800) rfl, by
    show averageBpmAttr (.vint ((12800 : Nat) : Int)) = "128.00"
    rw [averageBpmAttr_int 12800]
    decide⟩


/-- C6: for every integer raw BPM value `v` with `700 ≤ v ≤ 20000`, the
exported `AverageBpm` attribute is `v / 100.0` printed with exactly two
decimal places. -/
theorem c6_bpm_two_decimal_format (v : Nat) (_h1 : 700 ≤ v) (_h2 : v ≤ 20000) :
    averageBpmAttr (.vint (v : Int)) =
      toString (v / 100) ++ "." ++ (if v % 100 < 10 then "0" else "") ++ toString (v % 100) :=
  averageBpmAttr_int v

/-- Witness for C6 at `v = 12345`: the attribute is `"123.45"`. -/
theorem c6_witness :
    700 ≤ 12345 ∧ 12345 ≤ 20000 ∧ averageBpmAttr (.vint ((12345 : Nat) : Int)) = "123.45" :=
  ⟨by decide, by decide, by
    rw [c6_bpm_two_decimal_format 12345 (by decide) (by decide)]
    decide⟩

/-- C7: a track whose raw BPM value does not parse as a number is still
processed without an exception: `_add_track_to_xml` succeeds, the track
is appended to the collection, and `AverageBpm` is emitted as the
unmodified string form of the raw value. -/
theorem c7_nonnumeric_bpm_fallback (col : Collection) (t : Track) (raw : PyVal)
    (hb : getattr t "BPM" = some raw) (hp : pyFloatOfVal raw = none)
    (hl : t.location ≠ "") (hl2 : t.location ≠ "file://localhost/")
    (hfresh : ∀ tr ∈ col.tracks, tr.location ≠ t.location) :
    (addTrackToXml col t).2 = true ∧
    (addTrackToXml col t).1.tracks.length = col.tracks.length + 1 ∧
    dictGet (finalTrackAttrs t) "AverageBpm" = some (pyStr raw) := by
  have hadd := addTrackToXml_fresh col t hl hl2 hfresh
  refine ⟨by rw [hadd], by rw [hadd]; simp, ?_⟩
  rw [finalTrackAttrs_averageBpm t raw hb]
  unfold averageBpmAttr
  rw [hp]


/-- Witness for C7 at a concrete record with `BPM = "invalid"` on an
empty collection. -/
theorem c7_witness :
    getattr c7Track "BPM" = some (.vstr "invalid") ∧
    pyFloatOfVal (.vstr "invalid") = none ∧
    ((addTrackToXml ⟨[]⟩ c7Track).2 = true ∧
     (addTrackToXml ⟨[]⟩ c7Track).1.tracks.length = 0 + 1 ∧
     dictGet (finalTrackAttrs c7Track) "AverageBpm" = some (pyStr (.vstr "invalid"))) :=
  ⟨rfl, by decide,
   c7_nonnumeric_bpm_fallback ⟨[]⟩ c7Track (.vstr "invalid") rfl (by decide)
     (by decide) (by decide) (by simp)⟩

/-! Helper lemmas for duplicate-location handling and filtering. -/

theorem finalTrackLocation_eq (t : Track) (hne : t.location ≠ "")
    (hne2 : t.location ≠ "file://localhost/") : finalTrackLocation t = t.location := by
  unfold finalTrackLocation
  rw [beq_eq_false_iff_ne.mpr hne, beq_eq_false_iff_ne.mpr hne2]
  rfl

theorem append_qid_ne (s x : String) : s ++ "?id=" ++ x ≠ s := by
  intro h
  have hlen := congrArg String.length h
  rw [String.length_append, String.length_append] at hlen
  have h4 : ("?id=" : String).length = 4 := rfl
  omega

/-- A track whose location is already in the collection is re-added on
the retry path with `?id=<TrackID>` appended to its location
(`rkbdb2xml.py:487-492`). -/
theorem addTrackToXml_dup (col : Collection) (t : Track)
    (hne : t.location ≠ "") (hne2 : t.location ≠ "file://localhost/")
    (hdup : ∃ tr ∈ col.tracks, tr.location = t.location)
    (hfresh2 : ∀ tr ∈ col.tracks, tr.location ≠ t.location ++ "?id=" ++ trackIdAttr t) :
    addTrackToXml col t =
      (⟨col.tracks ++ [⟨(dictGet (finalTrackAttrs t) "TrackID").getD "",
          t.location ++ "?id=" ++ trackIdAttr t, finalTrackAttrs t⟩]⟩, true) := by
  have hl := finalTrackLocation_eq t hne hne2
  have hany : col.tracks.any (fun tr => tr.location == t.location) = true := by
    rw [List.any_eq_true]
    obtain ⟨tr, htr, he⟩ := hdup
    exact ⟨tr, htr, beq_iff_eq.mpr he⟩
  have hany2 :
      col.tracks.any (fun tr => tr.location == t.location ++ "?id=" ++ trackIdAttr t) = false := by
    rw [List.any_eq_false]
    intro x hx
    simpa [beq_iff_eq] using hfresh2 x hx
  unfold addTrackToXml
  rw [hl]
  unfold xmlAddTrack
  rw [hany, hany2]
  rfl

/-- The collection fold ignores rows with an empty resolved location:
folding over a list equals folding over its nonempty-location
sublist. -/
theorem collectionFold_filter (ts : List Track) :
    ∀ col, collectionFold ts col = collectionFold (ts.filter (fun t => t.location != "")) col := by
  induction ts with
  | nil => intro col; rfl
  | cons t ts ih =>
      intro col
      by_cases h : (t.location == "") = true
      · have hb : (t.location != "") = false := by simp [bne, h]
        show List.foldl _ _ _ = collectionFold (List.filter _ (t :: ts)) col
        rw [List.filter_cons, hb]
        simp only [List.foldl_cons, h, if_true]
        exact ih col
      · have hb : (t.location != "") = true := by
          simp only [bne]
          simpa using h
        show List.foldl _ _ _ = collectionFold (List.filter _ (t :: ts)) col
        rw [List.filter_cons, if_pos hb]
        show List.foldl _ _ _ = List.foldl _ _ _
        simp only [List.foldl_cons, h, Bool.false_eq_true, if_false]
        exact ih _

/-! Helper lemmas about the stable sort. -/

theorem mem_stableInsert (le : α → α → Bool) (a x : α) :
    ∀ l, x ∈ stableInsert le a l ↔ x = a ∨ x ∈ l := by
  intro l
  induction l with
  | nil => simp [stableInsert]
  | cons b bs ih =>
      by_cases h : le b a = true
      · rw [stableInsert, if_pos h]
        simp only [List.mem_cons, ih]
        tauto
      · rw [stableInsert, if_neg h]
        exact List.mem_cons

theorem stableInsert_pairwise (le : α → α → Bool)
    (htrans : ∀ a b c, le a b = true → le b c = true → le a c = true)
    (htotal : ∀ a b, le a b = true ∨ le b a = true) (a : α) :
    ∀ l, l.Pairwise (fun x y => le x y = true) →
      (stableInsert le a l).Pairwise (fun x y => le x y = true) := by
  intro l
  induction l with
  | nil =>
      intro _
      simp [stableInsert]
  | cons b bs ih =>
      intro hp
      rw [List.pairwise_cons] at hp
      obtain ⟨hb, hbs⟩ := hp
      by_cases h : le b a = true
      · rw [stableInsert, if_pos h, List.pairwise_cons]
        constructor
        · intro y hy
          rcases (mem_stableInsert le a y bs).mp hy with rfl | hmem
          · exact h
          · exact hb y hmem
        · exact ih hbs
      · rcases htotal a b with hab | hba
        · rw [stableInsert, if_neg h, List.pairwise_cons]
          constructor
          · intro y hy
            rcases List.mem_cons.mp hy with rfl | hmem
            · exact hab
            · exact htrans a b y hab (hb y hmem)
          · exact List.pairwise_cons.mpr ⟨hb, hbs⟩
        · exact absurd hba h

theorem foldl_stableInsert_pairwise (le : α → α → Bool)
    (htrans : ∀ a b c, le a b = true → le b c = true → le a c = true)
    (htotal : ∀ a b, le a b = true ∨ le b a = true) :
    ∀ (xs acc : List α), acc.Pairwise (fun x y => le x y = true) →
      (xs.foldl (fun acc a => stableInsert le a acc) acc).Pairwise
        (fun x y => le x y = true) := by
  intro xs
  induction xs with
  | nil => intro acc h; exact h
  | cons x xs ih =>
      intro acc h
      exact ih _ (stableInsert_pairwise le htrans htotal x acc h)

theorem stableSort_pairwise (le : α → α → Bool)
    (htrans : ∀ a b c, le a b = true → le b c = true → le a c = true)
    (htotal : ∀ a b, le a b = true ∨ le b a = true) (l : List α) :
    (stableSort le l).Pairwise (fun x y => le x y = true) :=
  foldl_stableInsert_pairwise le htrans htotal l [] List.Pairwise.nil

/-! Claim theorems C3, C4, C9, C10 with their witnesses and
counterexamples. -/

/-- C3 counterexample: two records resolving to the same file do not
yield exactly one `TRACK` element — both are emitted, the second with
`?id=2` appended to its location by the duplicate-retry path. -/
theorem c3_counterexample_duplicate_location :
    (addTracksToCollection [c3TrackA, c3TrackB]).tracks.length ≠ 1 ∧
    (addTracksToCollection [c3TrackA, c3TrackB]).tracks.map (fun tr => tr.location) =
      ["file://localhost/Music/same.mp3", "file://localhost/Music/same.mp3?id=2"] := by
  decide

/-- C3 (amended): for two records with the same non-empty resolved
location the exporter emits a `TRACK` element for each — there is no
deduplication; the first keeps the shared location and the second is
emitted under the uniquified location `location?id=<TrackID>`, so
COLLECTION locations stay pairwise distinct but the duplicate record is
not dropped. -/
theorem c3_amended_duplicate_kept_with_suffix (t1 t2 : Track)
    (hseq : t1.seq ≤ t2.seq) (hloc : t2.location = t1.location)
    (hne : t1.location ≠ "") (hne2 : t1.location ≠ "file://localhost/") :
    (addTracksToCollection [t1, t2]).tracks.map (fun tr => tr.location) =
      [t1.location, t1.location ++ "?id=" ++ trackIdAttr t2] := by
  have hne' : t2.location ≠ "" := hloc ▸ hne
  have hne2' : t2.location ≠ "file://localhost/" := hloc ▸ hne2
  have hsort : sortTracksBySequence [t1, t2] = [t1, t2] := by
    unfold sortTracksBySequence stableSort
    simp [stableInsert, hseq]
  unfold addTracksToCollection
  rw [hsort]
  unfold collectionFold
  simp only [List.foldl_cons, List.foldl_nil, beq_eq_false_iff_ne.mpr hne,
    beq_eq_false_iff_ne.mpr hne', Bool.false_eq_true, if_false]
  rw [addTrackToXml_fresh ⟨[]⟩ t1 hne hne2 (by simp)]
  rw [addTrackToXml_dup _ t2 hne' hne2' (by simp [hloc]) (by
    intro tr htr
    simp at htr
    rw [htr, hloc]
    intro hcontra
    exact append_qid_ne t1.location (trackIdAttr t2) hcontra.symm)]
  simp [hloc]

/-- Witness for the amended C3 at the two concrete duplicate rows. -/
theorem c3_amended_witness :
    c3TrackA.seq ≤ c3TrackB.seq ∧ c3TrackB.location = c3TrackA.location ∧
    c3TrackA.location ≠ "" ∧ c3TrackA.location ≠ "file://localhost/" ∧
    (addTracksToCollection [c3TrackA, c3TrackB]).tracks.map (fun tr => tr.location) =
      [c3TrackA.location, c3TrackA.location ++ "?id=" ++ trackIdAttr c3TrackB] :=
  ⟨by decide, rfl, by decide, by decide,
   c3_amended_duplicate_kept_with_suffix c3TrackA c3TrackB (by decide) rfl
     (by decide) (by decide)⟩

/-- C4 counterexample: a record whose resolved location begins with the
internal managed-content prefix is NOT excluded — the code has no
sentinel filter, so the track (id 3) appears in COLLECTION. -/
theorem c4_counterexample_sentinel_exported :
    (addTracksToCollection [c4SentinelTrack]).tracks.map (fun tr => tr.trackId) = ["3"] := by
  decide

/-- C4 (amended): only the empty-location half of the claim holds.
Records with an empty resolved location contribute nothing to
COLLECTION (the build equals the build over the nonempty-location
sublist), but there is no managed-content sentinel filter: every record
with a non-empty resolved location — sentinel-prefixed or not — is
exported. -/
theorem c4_amended_only_empty_excluded :
    (∀ ts : List Track,
      addTracksToCollection ts =
        collectionFold ((sortTracksBySequence ts).filter (fun t => t.location != "")) ⟨[]⟩) ∧
    (∀ t : Track, t.location ≠ "" → (addTracksToCollection [t]).tracks.length = 1) := by
  constructor
  · intro ts
    unfold addTracksToCollection
    exact collectionFold_filter _ _
  · intro t hne
    unfold addTracksToCollection
    have hsort : sortTracksBySequence [t] = [t] := rfl
    rw [hsort]
    unfold collectionFold
    simp only [List.foldl_cons, List.foldl_nil, beq_eq_false_iff_ne.mpr hne,
      Bool.false_eq_true, if_false]
    unfold addTrackToXml xmlAddTrack
    simp

/-- Witness for the amended C4: the sentinel-prefixed record has a
non-empty location and is exported. -/
theorem c4_amended_witness :
    c4SentinelTrack.location ≠ "" ∧
    (addTracksToCollection [c4SentinelTrack]).tracks.length = 1 :=
  ⟨by decide, c4_amended_only_empty_excluded.2 c4SentinelTrack (by decide)⟩

/-- C9: with `orderby="bpm"` the playlist's entries are re-sorted so the
referenced tracks' `AverageBpm` values (raw BPM divided by 100, missing
BPM treated as 0 and hence sorted first) are non-decreasing; with any
other mode the accessor's native order is preserved.  (Spec-modelled:
the ordering implementation is not among the files under `src/`.) -/
theorem c9_bpm_ascending_ordering (bpmOf : Nat → Option Int) (entries : List Nat)
    (mode : String) (hmode : mode ≠ "bpm") :
    (orderPlaylistEntries "bpm" bpmOf entries).Pairwise
      (fun a b => (((bpmOf a).getD 0 : Int) : ℚ) / 100 ≤ (((bpmOf b).getD 0 : Int) : ℚ) / 100) ∧
    orderPlaylistEntries mode bpmOf entries = entries := by
  constructor
  · show (orderPlaylistEntries "bpm" bpmOf entries).Pairwise _
    unfold orderPlaylistEntries
    rw [if_pos (by rfl)]
    refine List.Pairwise.imp ?_
      (stableSort_pairwise (fun a b => decide ((bpmOf a).getD 0 ≤ (bpmOf b).getD 0))
        (fun a b c hab hbc => ?_) (fun a b => ?_) entries)
    · intro a b h
      have h2 : ((bpmOf a).getD 0 : Int) ≤ (bpmOf b).getD 0 := of_decide_eq_true h
      have h3 : (((bpmOf a).getD 0 : Int) : ℚ) ≤ (((bpmOf b).getD 0 : Int) : ℚ) :=
        Int.cast_le.mpr h2
      linarith
    · have h2 : ((bpmOf a).getD 0 : Int) ≤ (bpmOf c).getD 0 :=
        le_trans (of_decide_eq_true hab) (of_decide_eq_true hbc)
      exact decide_eq_true h2
    · rcases le_total ((bpmOf a).getD 0) ((bpmOf b).getD 0) with h | h
      · exact Or.inl (decide_eq_true h)
      · exact Or.inr (decide_eq_true h)
  · unfold orderPlaylistEntries
    simp [beq_eq_false_iff_ne.mpr hmode]

/-- Witness for C9 at a three-entry playlist (track 3 without BPM sorts
first) and the `"default"` mode. -/
theorem c9_witness :
    ("default" : String) ≠ "bpm" ∧
    ((orderPlaylistEntries "bpm" c9BpmOf [1, 2, 3]).Pairwise
       (fun a b =>
         (((c9BpmOf a).getD 0 : Int) : ℚ) / 100 ≤ (((c9BpmOf b).getD 0 : Int) : ℚ) / 100) ∧
     orderPlaylistEntries "default" c9BpmOf [1, 2, 3] = [1, 2, 3]) :=
  ⟨by decide, c9_bpm_ascending_ordering c9BpmOf [1, 2, 3] "default" (by decide)⟩

/-- C10: `romanize` is the identity on empty and pure-ASCII input even
when enabled (in particular on `"TEST TRACK"`), and an engine failure
returns the original text instead of raising, so transliteration failure
never aborts an export.  (Spec-modelled: the transliteration
implementation is not among the files under `src/`.) -/
theorem c10_romanize_invariants :
    (∀ engine : String → Option String, romanize engine true "TEST TRACK" = "TEST TRACK") ∧
    (∀ (engine : String → Option String) (enabled : Bool) (text : String),
      text.data.all (fun c => c.toNat ≤ 127) = true → romanize engine enabled text = text) ∧
    (∀ (enabled : Bool) (text : String), romanize (fun _ => none) enabled text = text) ∧
    (∀ (engine : String → Option String) (enabled : Bool), romanize engine enabled "" = "") := by
  refine ⟨fun engine => rfl, ?_, ?_, ?_⟩
  · intro engine enabled text hascii
    unfold romanize
    rw [hascii]
    simp
  · intro enabled text
    unfold romanize
    split
    · rfl
    · rfl
  · intro engine enabled
    unfold romanize
    simp

/-- Witness for C10 at the ASCII input `"TEST TRACK"` with an engine
that would rewrite it. -/
theorem c10_witness :
    ("TEST TRACK" : String).data.all (fun c => c.toNat ≤ 127) = true ∧
    romanize (fun _ => some "X") true "TEST TRACK" = "TEST TRACK" :=
  ⟨by decide, c10_romanize_invariants.2.1 (fun _ => some "X") true "TEST TRACK" (by decide)⟩

/-! Playlist-tree hierarchy: helper lemmas and claim C8. -/


/-- Unfolding lemma for `fmLookup` on a prepended binding. -/
theorem fmLookup_cons (p : Nat × Nat) (fmap : List (Nat × Nat)) (k : Nat) :
    fmLookup (p :: fmap) k = if p.1 == k then some p.2 else fmLookup fmap k := by
  unfold fmLookup
  rw [List.find?]
  by_cases h : (p.1 == k) = true
  · simp [h]
  · simp [h]

/-- A key listed among the map's keys has a binding. -/
theorem fmLookup_isSome_of_contains (fmap : List (Nat × Nat)) (k : Nat)
    (h : (fmap.map (fun p => p.1)).contains k = true) : (fmLookup fmap k).isSome := by
  rw [List.contains_iff_exists_mem_beq] at h
  obtain ⟨a, ha, hbeq⟩ := h
  obtain ⟨p, hp, rfl⟩ := List.mem_map.mp ha
  have hs : (List.find? (fun p => p.1 == k) fmap).isSome := by
    rw [List.find?_isSome]
    exact ⟨p, hp, beq_iff_eq.mpr (beq_iff_eq.mp hbeq).symm⟩
  obtain ⟨q, hq⟩ := Option.isSome_iff_exists.mp hs
  unfold fmLookup
  rw [hq]
  rfl

/-- Invariant of the folder pass: nodes persist; unshadowed bindings
persist; a processed folder row whose parent is already resolvable when
the row is reached (parent id 0, a row placed earlier in the list, or a
pre-existing binding) gets a folder node whose parent pointer names a
node labelled with the row's `ParentId`; a processed row whose parent is
not resolvable at that point gets a folder node attached to node 0, by
the root fallback of `folder_map.get`; each processed row ends up bound
in the map to its own node; and every binding of the final map is
consistent with a node of the final list. -/
theorem buildFolders_spec (fs : List PlRow) :
    ∀ (nodes : List XNode) (fmap : List (Nat × Nat)),
    (∀ k nid, fmLookup fmap k = some nid →
        ∃ nd, nd ∈ nodes ∧ nd.nid = nid ∧ nd.rowId = k ∧ (k ≠ 0 → nd.kind = .folder)) →
    fmLookup fmap 0 = some 0 →
    (fs.map (fun f => f.id)).Nodup →
    (∀ f ∈ fs, f.id ≠ 0) →
    (∀ nd ∈ nodes, nd ∈ (buildFolders fs nodes fmap).1) ∧
    (∀ k nid, fmLookup fmap k = some nid → (∀ f ∈ fs, f.id ≠ k) →
        fmLookup (buildFolders fs nodes fmap).2 k = some nid) ∧
    (∀ f l1 l2, fs = l1 ++ f :: l2 →
        (f.parentId = 0 ∨ (∃ g ∈ l1, g.id = f.parentId) ∨
          (fmLookup fmap f.parentId).isSome = true) →
        ∃ nf nd, nf ∈ (buildFolders fs nodes fmap).1 ∧
          nd ∈ (buildFolders fs nodes fmap).1 ∧
          nf.rowId = f.id ∧ nf.kind = .folder ∧ nd.rowId = f.parentId ∧ nf.parent = nd.nid) ∧
    (∀ f l1 l2, fs = l1 ++ f :: l2 →
        (∀ g ∈ l1, g.id ≠ f.parentId) → fmLookup fmap f.parentId = none →
        ∃ nf, nf ∈ (buildFolders fs nodes fmap).1 ∧ nf.rowId = f.id ∧
          nf.kind = .folder ∧ nf.parent = 0) ∧
    (∀ f ∈ fs, ∃ nid, fmLookup (buildFolders fs nodes fmap).2 f.id = some nid ∧
        ∃ nd, nd ∈ (buildFolders fs nodes fmap).1 ∧ nd.nid = nid ∧ nd.rowId = f.id ∧
          nd.kind = .folder) ∧
    (∀ k nid, fmLookup (buildFolders fs nodes fmap).2 k = some nid →
        ∃ nd, nd ∈ (buildFolders fs nodes fmap).1 ∧ nd.nid = nid ∧ nd.rowId = k ∧
          (k ≠ 0 → nd.kind = .folder)) := by
  induction fs with
  | nil =>
      intro nodes fmap hmapOK hroot hnodup hnz
      refine ⟨fun nd h => h, fun k nid h _ => h, ?_, ?_,
        fun f hf => absurd hf (List.not_mem_nil f), hmapOK⟩
      · intro f l1 l2 hsplit _
        exact absurd hsplit (by simp)
      · intro f l1 l2 hsplit _ _
        exact absurd hsplit (by simp)
  | cons f0 rest ih =>
      intro nodes fmap hmapOK hroot hnodup hnz
      rw [List.map_cons, List.nodup_cons] at hnodup
      obtain ⟨hnotin, hnodup2⟩ := hnodup
      have hfz : f0.id ≠ 0 := hnz f0 (List.mem_cons_self f0 rest)
      have hnz2 : ∀ g ∈ rest, g.id ≠ 0 := fun g hg => hnz g (List.mem_cons_of_mem f0 hg)
      set nd0 : XNode :=
        ⟨nodes.length, (fmLookup fmap f0.parentId).getD 0, .folder, f0.name, f0.id, []⟩ with hnd0
      have hstep : buildFolders (f0 :: rest) nodes fmap =
          buildFolders rest (nodes ++ [nd0]) ((f0.id, nodes.length) :: fmap) := rfl
      have hmapOK2 : ∀ k nid, fmLookup ((f0.id, nodes.length) :: fmap) k = some nid →
          ∃ nd, nd ∈ nodes ++ [nd0] ∧ nd.nid = nid ∧ nd.rowId = k ∧
            (k ≠ 0 → nd.kind = .folder) := by
        intro k nid h
        rw [fmLookup_cons] at h
        by_cases hk : (f0.id == k) = true
        · rw [if_pos hk] at h
          have hk2 : f0.id = k := beq_iff_eq.mp hk
          refine ⟨nd0, List.mem_append_right _ (List.mem_singleton.mpr rfl), ?_, ?_, ?_⟩
          · simpa using h
          · simpa [hnd0] using hk2
          · intro _
            rfl
        · rw [if_neg hk] at h
          obtain ⟨nd, hnd, h1, h2, h3⟩ := hmapOK k nid h
          exact ⟨nd, List.mem_append_left _ hnd, h1, h2, h3⟩
      have hroot2 : fmLookup ((f0.id, nodes.length) :: fmap) 0 = some 0 := by
        rw [fmLookup_cons, if_neg (by simpa using hfz)]
        exact hroot
      obtain ⟨ihA, ihB, ihCpos, ihCneg, ihD, ihE⟩ :=
        ih (nodes ++ [nd0]) ((f0.id, nodes.length) :: fmap) hmapOK2 hroot2 hnodup2 hnz2
      rw [hstep]
      refine ⟨?_, ?_, ?_, ?_, ?_, ihE⟩
      · intro nd h
        exact ihA nd (List.mem_append_left _ h)
      · intro k nid h hne
        have hfk : f0.id ≠ k := hne f0 (List.mem_cons_self f0 rest)
        refine ihB k nid ?_ (fun g hg => hne g (List.mem_cons_of_mem f0 hg))
        rw [fmLookup_cons, if_neg (by simpa using hfk)]
        exact h
      · intro f l1 l2 hsplit hres
        cases l1 with
        | nil =>
            rw [List.nil_append] at hsplit
            obtain ⟨rfl, rfl⟩ : f0 = f ∧ rest = l2 := by
              injection hsplit with h1 h2
              exact ⟨h1, h2⟩
            have hparent : ∃ pnid, fmLookup fmap f0.parentId = some pnid ∧
                ∃ nd, nd ∈ nodes ∧ nd.nid = pnid ∧ nd.rowId = f0.parentId := by
              rcases hres with h0 | hg | hs
              · rw [h0]
                obtain ⟨nd, hnd, hnid, hrow, _⟩ := hmapOK 0 0 hroot
                exact ⟨0, hroot, nd, hnd, hnid, hrow⟩
              · obtain ⟨g, hgmem, _⟩ := hg
                exact absurd hgmem (List.not_mem_nil g)
              · obtain ⟨pnid, hp⟩ := Option.isSome_iff_exists.mp hs
                obtain ⟨nd, hnd, hnid, hrow, _⟩ := hmapOK f0.parentId pnid hp
                exact ⟨pnid, hp, nd, hnd, hnid, hrow⟩
            obtain ⟨pnid, hplook, pnode, hpmem, hpnid, hprow⟩ := hparent
            refine ⟨nd0, pnode, ihA nd0 (List.mem_append_right _ (List.mem_singleton.mpr rfl)),
              ihA pnode (List.mem_append_left _ hpmem), rfl, rfl, hprow, ?_⟩
            show (fmLookup fmap f0.parentId).getD 0 = pnode.nid
            rw [hplook, hpnid]
            rfl
        | cons g0 l1x =>
            rw [List.cons_append] at hsplit
            obtain ⟨rfl, hrest⟩ : f0 = g0 ∧ rest = l1x ++ f :: l2 := by
              injection hsplit with h1 h2
              exact ⟨h1, h2⟩
            refine ihCpos f l1x l2 hrest ?_
            rcases hres with h0 | ⟨g, hgmem, hgid⟩ | hs
            · exact Or.inl h0
            · rcases List.mem_cons.mp hgmem with rfl | hmem2
              · refine Or.inr (Or.inr ?_)
                rw [fmLookup_cons, if_pos (beq_iff_eq.mpr hgid)]
                rfl
              · exact Or.inr (Or.inl ⟨g, hmem2, hgid⟩)
            · refine Or.inr (Or.inr ?_)
              rw [fmLookup_cons]
              by_cases hk : (f0.id == f.parentId) = true
              · rw [if_pos hk]
                rfl
              · rw [if_neg hk]
                exact hs
      · intro f l1 l2 hsplit hne hnone
        cases l1 with
        | nil =>
            rw [List.nil_append] at hsplit
            obtain ⟨rfl, rfl⟩ : f0 = f ∧ rest = l2 := by
              injection hsplit with h1 h2
              exact ⟨h1, h2⟩
            refine ⟨nd0, ihA nd0 (List.mem_append_right _ (List.mem_singleton.mpr rfl)),
              rfl, rfl, ?_⟩
            show (fmLookup fmap f0.parentId).getD 0 = 0
            rw [hnone]
            rfl
        | cons g0 l1x =>
            rw [List.cons_append] at hsplit
            obtain ⟨rfl, hrest⟩ : f0 = g0 ∧ rest = l1x ++ f :: l2 := by
              injection hsplit with h1 h2
              exact ⟨h1, h2⟩
            have hg0 : f0.id ≠ f.parentId := hne f0 (List.mem_cons_self f0 l1x)
            refine ihCneg f l1x l2 hrest (fun g hg => hne g (List.mem_cons_of_mem f0 hg)) ?_
            rw [fmLookup_cons, if_neg (by simpa using hg0)]
            exact hnone
      · intro g hg
        rcases List.mem_cons.mp hg with rfl | hg2
        · refine ⟨nodes.length, ?_, nd0,
            ihA nd0 (List.mem_append_right _ (List.mem_singleton.mpr rfl)), rfl, rfl, rfl⟩
          refine ihB g.id nodes.length ?_ ?_
          · rw [fmLookup_cons, if_pos (by simp)]
          · intro g2 hg3 hcontra
            exact hnotin (hcontra ▸ List.mem_map.mpr ⟨g2, hg3, rfl⟩)
        · exact ihD g hg2

/-- Invariant of the playlist pass: nodes persist, and every playlist
row whose `ParentId` is bound in the folder map gets a playlist node
under the bound node. -/
theorem buildPlaylists_spec (ent : Nat → List Nat) (ps : List PlRow) :
    ∀ (nodes : List XNode) (fmap : List (Nat × Nat)),
    (∀ nd ∈ nodes, nd ∈ buildPlaylists ent ps nodes fmap) ∧
    (∀ p ∈ ps, ∀ nid, fmLookup fmap p.parentId = some nid →
        ∃ np, np ∈ buildPlaylists ent ps nodes fmap ∧ np.rowId = p.id ∧
          np.kind = .playlist ∧ np.parent = nid) := by
  induction ps with
  | nil =>
      intro nodes fmap
      exact ⟨fun nd h => h, fun p hp => absurd hp (List.not_mem_nil p)⟩
  | cons p rest ih =>
      intro nodes fmap
      set np0 : XNode := ⟨nodes.length, (fmLookup fmap p.parentId).getD 0, .playlist, p.name,
        p.id, ((ent p.id).filter (fun cid => cid ≠ 0)).map (fun cid => toString cid)⟩ with hnp0
      have hstep : buildPlaylists ent (p :: rest) nodes fmap =
          buildPlaylists ent rest (nodes ++ [np0]) fmap := rfl
      obtain ⟨ihA, ihB⟩ := ih (nodes ++ [np0]) fmap
      rw [hstep]
      refine ⟨fun nd h => ihA nd (List.mem_append_left _ h), ?_⟩
      intro q hq nid hlook
      rcases List.mem_cons.mp hq with rfl | hq'
      · refine ⟨np0, ihA np0 (List.mem_append_right _ (List.mem_singleton.mpr rfl)),
          rfl, rfl, ?_⟩
        show (fmLookup fmap q.parentId).getD 0 = nid
        rw [hlook]
        rfl
      · exact ihB q hq' nid hlook

theorem stableInsert_perm (le : α → α → Bool) (a : α) :
    ∀ l, (stableInsert le a l).Perm (a :: l) := by
  intro l
  induction l with
  | nil => exact List.Perm.refl _
  | cons b bs ih =>
      by_cases h : le b a = true
      · rw [stableInsert, if_pos h]
        exact (List.Perm.cons b ih).trans (List.Perm.swap a b bs)
      · rw [stableInsert, if_neg h]

theorem foldl_stableInsert_perm (le : α → α → Bool) :
    ∀ (xs acc : List α),
      (xs.foldl (fun acc a => stableInsert le a acc) acc).Perm (acc ++ xs) := by
  intro xs
  induction xs with
  | nil => intro acc; simp
  | cons x xs ih =>
      intro acc
      rw [List.foldl_cons]
      refine (ih (stableInsert le x acc)).trans ?_
      have h1 : (stableInsert le x acc).Perm (acc ++ [x]) :=
        (stableInsert_perm le x acc).trans (List.perm_append_singleton x acc).symm
      have h2 : ((stableInsert le x acc) ++ xs).Perm ((acc ++ [x]) ++ xs) :=
        h1.append_right xs
      simpa using h2

theorem stableSort_perm (le : α → α → Bool) (l : List α) : (stableSort le l).Perm l := by
  have h := foldl_stableInsert_perm le l []
  simpa [stableSort] using h



/-- C8 (amended): with pairwise-distinct nonzero row ids, (a) a leaf
playlist row whose parent folder row exists is always attached under
that folder's node — in every enumeration order, since every folder is
registered in `folder_map` before the playlist pass runs; (b) a folder
row whose parent the stable `ParentId` sort has placed before it (or
whose parent id is 0, the root) is attached under its parent's node; and
(c) a folder row with a nonzero parent id carried by no earlier folder
row is attached to the root node instead — so the hierarchy is NOT
correct regardless of enumeration order (see the counterexample). -/
theorem c8_amended_hierarchy (folders playlists : List PlRow) (ent : Nat → List Nat)
    (hnodup : (folders.map (fun f => f.id)).Nodup)
    (hnz : ∀ f ∈ folders, f.id ≠ 0) :
    (∀ p ∈ playlists, ∀ g ∈ folders, g.id = p.parentId →
      ∃ np nd, np ∈ addPlaylists folders playlists ent ∧
        nd ∈ addPlaylists folders playlists ent ∧
        np.rowId = p.id ∧ np.kind = .playlist ∧ nd.rowId = g.id ∧ nd.kind = .folder ∧
        np.parent = nd.nid) ∧
    (∀ f l1 l2, sortFoldersByParentId folders = l1 ++ f :: l2 →
      (f.parentId = 0 ∨ ∃ g ∈ l1, g.id = f.parentId) →
      ∃ nf nd, nf ∈ addPlaylists folders playlists ent ∧
        nd ∈ addPlaylists folders playlists ent ∧
        nf.rowId = f.id ∧ nf.kind = .folder ∧ nd.rowId = f.parentId ∧ nf.parent = nd.nid) ∧
    (∀ f l1 l2, sortFoldersByParentId folders = l1 ++ f :: l2 →
      f.parentId ≠ 0 → (∀ g ∈ l1, g.id ≠ f.parentId) →
      ∃ nf, nf ∈ addPlaylists folders playlists ent ∧ nf.rowId = f.id ∧
        nf.kind = .folder ∧ nf.parent = rootNode.nid) := by
  have hperm := stableSort_perm (fun a b => decide (a.parentId ≤ b.parentId)) folders
  have hmem : ∀ f, f ∈ sortFoldersByParentId folders ↔ f ∈ folders := fun f => hperm.mem_iff
  have hnodup2 : ((sortFoldersByParentId folders).map (fun f => f.id)).Nodup :=
    ((hperm.map (fun f => f.id)).nodup_iff).mpr hnodup
  have hnz2 : ∀ f ∈ sortFoldersByParentId folders, f.id ≠ 0 := fun f hf => hnz f ((hmem f).mp hf)
  have hmapOK0 : ∀ k nid, fmLookup [(0, 0)] k = some nid →
      ∃ nd, nd ∈ [rootNode] ∧ nd.nid = nid ∧ nd.rowId = k ∧ (k ≠ 0 → nd.kind = .folder) := by
    intro k nid h
    rw [fmLookup_cons] at h
    by_cases hk : ((0 : Nat) == k) = true
    · rw [if_pos hk] at h
      have hk0 : (0 : Nat) = k := beq_iff_eq.mp hk
      refine ⟨rootNode, List.mem_singleton.mpr rfl, by simpa using h, by simpa using hk0, ?_⟩
      intro hkne
      exact absurd hk0.symm hkne
    · rw [if_neg hk] at h
      exact absurd h (by simp [fmLookup])
  have hroot0 : fmLookup [(0, 0)] 0 = some 0 := rfl
  obtain ⟨bfA, bfB, bfCpos, bfCneg, bfD, bfE⟩ :=
    buildFolders_spec (sortFoldersByParentId folders) [rootNode] [(0, 0)]
      hmapOK0 hroot0 hnodup2 hnz2
  obtain ⟨bpA, bpB⟩ :=
    buildPlaylists_spec ent playlists
      (buildFolders (sortFoldersByParentId folders) [rootNode] [(0, 0)]).1
      (buildFolders (sortFoldersByParentId folders) [rootNode] [(0, 0)]).2
  refine ⟨?_, ?_, ?_⟩
  · intro p hp g hg hgid
    obtain ⟨nid, hlook, nd, hnd, hnid, hrow, hkind⟩ := bfD g ((hmem g).mpr hg)
    obtain ⟨np, hnp, h1, h2, h3⟩ := bpB p hp nid (hgid ▸ hlook)
    exact ⟨np, nd, hnp, bpA nd hnd, h1, h2, hrow, hkind, h3.trans hnid.symm⟩
  · intro f l1 l2 hsplit hres
    obtain ⟨nf, nd, hnf, hnd, h1, h2, h3, h4⟩ := bfCpos f l1 l2 hsplit (by
      rcases hres with h0 | hg
      · exact Or.inl h0
      · exact Or.inr (Or.inl hg))
    exact ⟨nf, nd, bpA nf hnf, bpA nd hnd, h1, h2, h3, h4⟩
  · intro f l1 l2 hsplit hpz hne
    obtain ⟨nf, hnf, h1, h2, h3⟩ := bfCneg f l1 l2 hsplit hne (by
      rw [fmLookup_cons, if_neg (by simpa using Ne.symm hpz)]
      rfl)
    exact ⟨nf, bpA nf hnf, h1, h2, h3⟩

/-- C8 counterexample: on three folder rows `(id 8, parent 0)`,
`(id 7, parent 8)`, `(id 9, parent 7)` the sort by `ParentId` processes
row 9 before its parent row 7, so row 9's node is created under the root
(parent nid 0) although row 7's node (nid 3) exists — refuting "child of
its parent's node regardless of enumeration order". -/
theorem c8_counterexample_child_before_parent :
    ((addPlaylists c8FoldersBad [] c8EntriesOf).filter (fun n => n.rowId == 9)).map
      (fun n => n.parent) = [0] ∧
    ((addPlaylists c8FoldersBad [] c8EntriesOf).filter (fun n => n.rowId == 7)).map
      (fun n => n.nid) = [3] ∧
    ((addPlaylists c8FoldersBad [] c8EntriesOf).filter (fun n => n.rowId == 0)).map
      (fun n => n.nid) = [0] ∧ (0 : Nat) ≠ 3 := by
  decide

/-- Witness for the amended C8 at a two-folder, one-playlist fixture,
instantiating the always-valid playlist half. -/
theorem c8_amended_witness :
    ((c8Folders.map (fun f => f.id)).Nodup ∧ (∀ f ∈ c8Folders, f.id ≠ 0)) ∧
    (∀ p ∈ c8Playlists, ∀ g ∈ c8Folders, g.id = p.parentId →
      ∃ np nd, np ∈ addPlaylists c8Folders c8Playlists c8EntriesOf ∧
        nd ∈ addPlaylists c8Folders c8Playlists c8EntriesOf ∧
        np.rowId = p.id ∧ np.kind = .playlist ∧ nd.rowId = g.id ∧ nd.kind = .folder ∧
        np.parent = nd.nid) :=
  ⟨⟨by decide, by decide⟩,
   (c8_amended_hierarchy c8Folders c8Playlists c8EntriesOf (by decide) (by decide)).1⟩

end Rkbdb2xml
